import Mathlib

/-!
Verification of the neo-core orchestration engine (src/api/app.py, the most
advanced iteration of the service) against its natural-language specification.

The Python source is shallowly embedded: every pure computation becomes an
executable Lean definition, and every effectful boundary (HTTP call attempts,
the wait-for deadline, random jitter) becomes an explicit oracle parameter
that the caller supplies, so that the control flow of the source can be
re-traced deterministically.
-/

namespace NeoCore

/-! ## JSON values and a model of Python `json.loads`

`safe_json` in src/api/app.py delegates to `json.loads`.  The values it can
produce are modelled by the `Json` inductive below.  The parser `json_loads`
models the subset of `json.loads` exercised by this service: null/true/false,
integer numerals, strings with the common backslash escapes, arrays and
objects, with surrounding whitespace.  JSON float literals, `NaN`/`Infinity`
and `\u` escapes are outside the model (no input considered in this file
contains them; the parser answers `none` there, and every theorem that
quantifies over arbitrary text takes the parser's answer as a hypothesis).
-/

inductive Json where
  | null
  | bool (b : Bool)
  | num (n : Int)
  | str (s : String)
  | arr (elems : List Json)
  | obj (fields : List (String × Json))

/-- The character `{` (written via its code point to keep it out of string
literals). -/
def lbraceChar : Char := Char.ofNat 123

/-- The character `}`. -/
def rbraceChar : Char := Char.ofNat 125

/-- JSON insignificant whitespace (also the whitespace set of Python
`str.strip`, restricted to ASCII). -/
def jsonWs (c : Char) : Bool := c = ' ' || c = '\t' || c = '\n' || c = '\r'

/-- Drop leading JSON whitespace. -/
def skipWs : List Char → List Char
  | [] => []
  | c :: cs => if jsonWs c then skipWs cs else c :: cs

/-- Match a literal character sequence, returning the remainder. -/
def matchLit : List Char → List Char → Option (List Char)
  | [], rest => some rest
  | _ :: _, [] => none
  | p :: ps, c :: cs => if p = c then matchLit ps cs else none

/-- Parse the body of a JSON string (after the opening quote), handling the
common backslash escapes.  Returns the decoded characters and the remainder
after the closing quote. -/
def parseStringChars : List Char → Option (List Char × List Char)
  | [] => none
  | c :: cs =>
    if c = '"' then some ([], cs)
    else if c = '\\' then
      match cs with
      | [] => none
      | e :: cs2 =>
        let esc : Option Char :=
          if e = '"' then some '"'
          else if e = '\\' then some '\\'
          else if e = '/' then some '/'
          else if e = 'n' then some '\n'
          else if e = 't' then some '\t'
          else if e = 'r' then some '\r'
          else none
        match esc with
        | none => none
        | some ch =>
          match parseStringChars cs2 with
          | some (rest, rem) => some (ch :: rest, rem)
          | none => none
    else
      match parseStringChars cs with
      | some (rest, rem) => some (c :: rest, rem)
      | none => none

/-- Take a maximal run of decimal digits. -/
def takeDigits : List Char → List Char × List Char
  | [] => ([], [])
  | c :: cs =>
    if c.isDigit then
      let (ds, rest) := takeDigits cs
      (c :: ds, rest)
    else ([], c :: cs)

/-- Decimal digits to a natural number. -/
def digitsToNat (ds : List Char) : Nat :=
  ds.foldl (fun acc c => acc * 10 + (c.toNat - 48)) 0

/-- After an integer numeral, a `.`/`e`/`E` would start float syntax, which
is outside the model: the parser rejects it rather than mis-reading it. -/
def numBreak : List Char → Bool
  | [] => true
  | c :: _ => !(c = '.' || c = 'e' || c = 'E')

mutual

/-- Fuel-indexed recursive-descent parser for one JSON value.  Returns the
value and the unconsumed remainder. -/
def parseValue : Nat → List Char → Option (Json × List Char)
  | 0, _ => none
  | fuel + 1, input =>
    match skipWs input with
    | [] => none
    | c :: cs =>
      if c = 'n' then (matchLit ['u', 'l', 'l'] cs).map (fun r => (Json.null, r))
      else if c = 't' then (matchLit ['r', 'u', 'e'] cs).map (fun r => (Json.bool true, r))
      else if c = 'f' then (matchLit ['a', 'l', 's', 'e'] cs).map (fun r => (Json.bool false, r))
      else if c = '"' then
        match parseStringChars cs with
        | some (sChars, rest) => some (Json.str (String.mk sChars), rest)
        | none => none
      else if c = '[' then
        match skipWs cs with
        | [] => none
        | d :: ds =>
          if d = ']' then some (Json.arr [], ds)
          else
            match parseArrayItems fuel (d :: ds) with
            | some (vs, rem) => some (Json.arr vs, rem)
            | none => none
      else if c = lbraceChar then
        match skipWs cs with
        | [] => none
        | d :: ds =>
          if d = rbraceChar then some (Json.obj [], ds)
          else
            match parseObjItems fuel (d :: ds) with
            | some (kvs, rem) => some (Json.obj kvs, rem)
            | none => none
      else if c = '-' then
        match takeDigits cs with
        | ([], _) => none
        | (ds, rest) =>
          if numBreak rest then some (Json.num (-(digitsToNat ds : Int)), rest) else none
      else if c.isDigit then
        match takeDigits (c :: cs) with
        | (ds, rest) =>
          if numBreak rest then some (Json.num (digitsToNat ds : Int), rest) else none
      else none

/-- Parse the comma-separated items of a non-empty JSON array (positioned at
the first item), up to and including the closing bracket. -/
def parseArrayItems : Nat → List Char → Option (List Json × List Char)
  | 0, _ => none
  | fuel + 1, input =>
    match parseValue fuel input with
    | none => none
    | some (v, rest) =>
      match skipWs rest with
      | [] => none
      | c :: cs =>
        if c = ',' then
          match parseArrayItems fuel cs with
          | some (vs, rem) => some (v :: vs, rem)
          | none => none
        else if c = ']' then some ([v], cs)
        else none

/-- Parse the comma-separated members of a non-empty JSON object (positioned
at the first key), up to and including the closing brace. -/
def parseObjItems : Nat → List Char → Option (List (String × Json) × List Char)
  | 0, _ => none
  | fuel + 1, input =>
    match skipWs input with
    | [] => none
    | c :: cs =>
      if c = '"' then
        match parseStringChars cs with
        | none => none
        | some (kChars, rest) =>
          match skipWs rest with
          | [] => none
          | c2 :: cs2 =>
            if c2 = ':' then
              match parseValue fuel cs2 with
              | none => none
              | some (v, rest2) =>
                match skipWs rest2 with
                | [] => none
                | c3 :: cs3 =>
                  if c3 = ',' then
                    match parseObjItems fuel cs3 with
                    | some (kvs, rem) => some ((String.mk kChars, v) :: kvs, rem)
                    | none => none
                  else if c3 = rbraceChar then some ([(String.mk kChars, v)], cs3)
                  else none
            else none
      else none

end

/-- Model of Python `json.loads`: parse one value, allow trailing whitespace,
reject anything else.  `none` models a raised `JSONDecodeError`. -/
def json_loads (s : String) : Option Json :=
  match parseValue (2 * s.length + 8) s.data with
  | some (v, rest) => if skipWs rest = [] then some v else none
  | none => none

/-! ## Python string helpers -/

/-- Model of Python `str.strip()` (without arguments: strip surrounding
whitespace). -/
def pyStrip (s : String) : String :=
  String.mk (((s.data.dropWhile Char.isWhitespace).reverse.dropWhile Char.isWhitespace).reverse)

/-- Lookup in a decoded JSON object, modelling Python `dict.get`: with
duplicate keys, `json.loads` keeps the last occurrence, so the scan runs over
the reversed field list. -/
def jlookup (kvs : List (String × Json)) (k : String) : Option Json :=
  (kvs.reverse.find? (fun p => p.1 == k)).map Prod.snd

/-- Python truthiness of a decoded JSON value (`None`, `False`, `0`, `""`,
`[]` and the empty dict are falsy). -/
def jfalsy : Json → Bool
  | .null => true
  | .bool b => !b
  | .num n => n == 0
  | .str s => s == ""
  | .arr xs => xs.isEmpty
  | .obj kvs => kvs.isEmpty

mutual

/-- Model of Python `repr` on decoded JSON values (used by `str` on
containers).  Apostrophes are written via their code-point escape. -/
def pyRepr : Json → String
  | .null => "None"
  | .bool true => "True"
  | .bool false => "False"
  | .num n => toString n
  | .str s => "\x27" ++ s ++ "\x27"
  | .arr xs => "[" ++ String.intercalate ", " (pyReprList xs) ++ "]"
  | .obj kvs =>
    String.singleton lbraceChar ++ String.intercalate ", " (pyReprFields kvs)
      ++ String.singleton rbraceChar

def pyReprList : List Json → List String
  | [] => []
  | x :: xs => pyRepr x :: pyReprList xs

def pyReprFields : List (String × Json) → List String
  | [] => []
  | (k, v) :: kvs => ("\x27" ++ k ++ "\x27: " ++ pyRepr v) :: pyReprFields kvs

end

/-- Model of Python `str(x)` on a decoded JSON value (as applied to each
risk entry by `_run_one_advisor`). -/
def pyStr (v : Json) : String :=
  match v with
  | .str s => s
  | _ => pyRepr v

/-! ## ResponseParser: `safe_json` (src/api/app.py lines 118-142) -/

/-- Index of the first occurrence of `c` (Python `str.find`, `none` for -1). -/
def findIdxChar (l : List Char) (c : Char) : Option Nat :=
  l.findIdx? (· = c)

/-- Index of the last occurrence of `c` (Python `str.rfind`). -/
def rfindIdxChar (l : List Char) (c : Char) : Option Nat :=
  match findIdxChar l.reverse c with
  | none => none
  | some k => some (l.length - 1 - k)

/-- Embedding of `safe_json`: try `json.loads` on the stripped text, else
try the substring from the first `{` to the last `}`, else return the empty
dict.  Note the source returns whatever `json.loads` yields, which need not
be a dict. -/
def safe_json (text : String) : Json :=
  if text = "" then Json.obj []
  else
    let t := pyStrip text
    match json_loads t with
    | some v => v
    | none =>
      match findIdxChar t.data lbraceChar, rfindIdxChar t.data rbraceChar with
      | some s, some e =>
        if s < e then
          match json_loads (String.mk ((t.data.drop s).take (e + 1 - s))) with
          | some v => v
          | none => Json.obj []
        else Json.obj []
      | _, _ => Json.obj []

/-- Recognizer: is this JSON value a mapping (Python dict)? -/
def jIsObj : Json → Bool
  | .obj _ => true
  | _ => false

example : json_loads "3" = some (Json.num 3) := rfl
example : json_loads " x " = none := rfl
example : safe_json "3" = Json.num 3 := rfl
example : safe_json "hello" = Json.obj [] := rfl
example : safe_json " x " = Json.obj [] := rfl

/-! ## CallExecutor: `aoai_chat` (src/api/app.py lines 144-180)

The loop `for attempt in range(RETRY_MAX + 1)` is embedded as a fuel-indexed
recursion (`fuel` is the number of loop iterations still available, initially
`RETRY_MAX + 1`).  The body of each iteration is decided by an oracle
`outcome : Nat → AttemptOutcome` giving, per attempt index, either the HTTP
response of `client.post` or a network-level transient fault, and an oracle
`jitter : Nat → Nat` giving the value drawn by `random.randint(0, 150)` for
that attempt's backoff.
-/

/-- Environment configuration read at module load (src/api/app.py lines
78-95).  The three `*Set` flags model non-emptiness of `AZURE_AOAI_ENDPOINT`,
`AZURE_AOAI_API_KEY` and `AZURE_AOAI_API_VERSION`; `retryMax` and
`retryBaseMs` model `AOAI_RETRY_MAX` and `AOAI_RETRY_BASE_MS`. -/
structure Config where
  endpointSet : Bool
  keySet : Bool
  verSet : Bool
  retryMax : Nat
  retryBaseMs : Nat
  deriving DecidableEq

/-- The guard `AZ_ENDPOINT and AZ_KEY and AZ_VER` at line 145. -/
def configOk (cfg : Config) : Bool :=
  cfg.endpointSet && cfg.keySet && cfg.verSet

/-- What one `client.post` does: either an HTTP response (status code plus,
for a success, the message content that the source's
`data.get("choices", ...)` extraction would produce from the body; for an
error, the body text), or one of the network faults `httpx.ReadTimeout`,
`httpx.ConnectTimeout`, `httpx.RemoteProtocolError`. -/
inductive AttemptOutcome where
  | status (code : Nat) (content : String)
  | netErr
  deriving DecidableEq

/-- How one whole `aoai_chat` call settles: the returned text, a raised
`HTTPException` with its status code, or the raised `RuntimeError` for
missing configuration. -/
inductive CallResult where
  | success (text : String)
  | httpError (status : Nat)
  | configError
  deriving DecidableEq

/-- Observable record of one `aoai_chat` call: how it settled, the backoff
delays (in ms) computed before each retry, in order, and the number of HTTP
posts issued. -/
structure AoaiRun where
  result : CallResult
  delays : List Nat
  posts : Nat
  deriving DecidableEq

/-- The retryable status set at line 162: `(429, 502, 503, 504)`. -/
def RETRYABLE : List Nat := [429, 502, 503, 504]

/-- The backoff computed at lines 164 and 177:
`RETRY_BASE_MS * (2 ** attempt) + random.randint(0, 150)`. -/
def backoffMs (base : Nat) (jitter : Nat → Nat) (attempt : Nat) : Nat :=
  base * 2 ^ attempt + jitter attempt

/-- The retry loop of `aoai_chat` (lines 159-180), one constructor branch per
source branch.  The fuel-exhausted case is the loop falling through, where
the source returns `""` (line 180; unreachable when started with fuel
`retryMax + 1`, since every `continue` requires `attempt < RETRY_MAX`). -/
def runAttempts (retryMax base : Nat) (outcome : Nat → AttemptOutcome) (jitter : Nat → Nat) :
    Nat → Nat → AoaiRun
  | _, 0 => ⟨.success "", [], 0⟩
  | attempt, fuel + 1 =>
    match outcome attempt with
    | .status code content =>
      if code ∈ RETRYABLE ∧ attempt < retryMax then
        let rest := runAttempts retryMax base outcome jitter (attempt + 1) fuel
        ⟨rest.result, backoffMs base jitter attempt :: rest.delays, rest.posts + 1⟩
      else if 400 ≤ code then ⟨.httpError code, [], 1⟩
      else ⟨.success content, [], 1⟩
    | .netErr =>
      if retryMax ≤ attempt then ⟨.httpError 502, [], 1⟩
      else
        let rest := runAttempts retryMax base outcome jitter (attempt + 1) fuel
        ⟨rest.result, backoffMs base jitter attempt :: rest.delays, rest.posts + 1⟩

/-- Embedding of one `aoai_chat` call: the configuration guard (line 145),
then the retry loop over `range(RETRY_MAX + 1)`. -/
def aoai_chat (cfg : Config) (outcome : Nat → AttemptOutcome) (jitter : Nat → Nat) : AoaiRun :=
  if configOk cfg then
    runAttempts cfg.retryMax cfg.retryBaseMs outcome jitter 0 (cfg.retryMax + 1)
  else ⟨.configError, [], 0⟩

/-! ## One advisor call: `_run_one_advisor` (src/api/app.py lines 231-280) -/

/-- How `asyncio.wait_for(aoai_chat(...))` settles at the boundary of
`_run_one_advisor` (and of the monarch block): the returned raw text, the
`asyncio.TimeoutError` of the expired deadline, a raised `HTTPException`, or
any other exception with the name of its type. -/
inductive AdvisorCallOutcome where
  | ok (raw : String)
  | timeout
  | httpExc (status : Nat)
  | exc (tyName : String)
  deriving DecidableEq

/-- Environment of one guarded call: whether the `wait_for` deadline fired
before the call finished (and how many posts had been issued by then), plus
the per-attempt response and jitter oracles consumed by `aoai_chat`. -/
structure CallEnv where
  timedOut : Bool
  postsAtTimeout : Nat
  outcome : Nat → AttemptOutcome
  jitter : Nat → Nat

/-- Settles `asyncio.wait_for(aoai_chat(deployment, ...), timeout=...)`:
the configuration guard raises `RuntimeError` synchronously, before any
network suspension, so the (positive) deadline cannot fire first; otherwise
a fired deadline yields `asyncio.TimeoutError`, and a completed `aoai_chat`
maps its result onto the boundary outcome.  The second component counts the
HTTP posts issued. -/
def guarded_call (cfg : Config) (env : CallEnv) : AdvisorCallOutcome × Nat :=
  if configOk cfg then
    if env.timedOut then (.timeout, env.postsAtTimeout)
    else
      match aoai_chat cfg env.outcome env.jitter with
      | ⟨.success t, _, posts⟩ => (.ok t, posts)
      | ⟨.httpError s, _, posts⟩ => (.httpExc s, posts)
      | ⟨.configError, _, posts⟩ => (.exc "RuntimeError", posts)
  else (.exc "RuntimeError", 0)

/-- The `AdvisorOut` response model (src/api/app.py lines 43-48). -/
structure AdvisorOut where
  name : String
  model : String
  summary : String
  risks : List String
  recommendation : String
  deriving DecidableEq

/-- The `MonarchOut` response model (lines 51-55). -/
structure MonarchOut where
  decision : String
  rationale : String
  dissent_summary : String
  next_actions : List String
  deriving DecidableEq

/-- The `SwarmResponse` model (lines 57-63), restricted to the fields the
orchestration logic determines (`request_id` is a fresh UUID, `thread_id`
echoes the request, `timing_ms` is wall-clock time: all environmental). -/
structure SwarmResponse where
  status : String
  advisors : List AdvisorOut
  monarch : MonarchOut
  deriving DecidableEq

/-- Models `(obj.get(k) or "").strip()` (lines 246, 248, 336-338) on a
decoded dict: a missing key gives `None`, falsy values collapse to `""`, a
string is stripped, and a truthy non-string raises `AttributeError` on
`.strip()` (modelled as `none`). -/
def getStrField (kvs : List (String × Json)) (k : String) : Option String :=
  match jlookup kvs k with
  | none => some ""
  | some v =>
    if jfalsy v then some ""
    else
      match v with
      | .str s => some (pyStrip s)
      | _ => none

/-- Models `obj.get("risks") if isinstance(obj.get("risks"), list) else []`
(line 247 and, for `next_actions`, line 339). -/
def getListField (kvs : List (String × Json)) (k : String) : List Json :=
  match jlookup kvs k with
  | some (.arr xs) => xs
  | _ => []

/-- The body of `_run_one_advisor` after the call settled (lines 244-280):
the success path parses the raw text, extracts the structured fields, and
falls back to the stripped raw text when the summary is empty; a non-dict
parse or a truthy non-string field raises `AttributeError`, landing in the
generic `except Exception` arm; the three failure arms produce the
diagnostic placeholders of lines 267-280. -/
def advisorOutOf (name deployment : String) (out : AdvisorCallOutcome) : AdvisorOut :=
  match out with
  | .ok raw =>
    match safe_json raw with
    | .obj kvs =>
      match getStrField kvs "summary", getStrField kvs "recommendation" with
      | some summary, some recommendation =>
        let risks := getListField kvs "risks"
        if summary = "" ∧ pyStrip raw ≠ "" then
          ⟨name, deployment, pyStrip raw, [], "N/A"⟩
        else
          ⟨name, deployment, summary, risks.map pyStr, recommendation⟩
      | _, _ => ⟨name, deployment, "", ["exception:AttributeError"], ""⟩
    | _ => ⟨name, deployment, "", ["exception:AttributeError"], ""⟩
  | .timeout => ⟨name, deployment, "", ["timeout"], ""⟩
  | .httpExc s => ⟨name, deployment, "", ["error:" ++ toString s], ""⟩
  | .exc ty => ⟨name, deployment, "", ["exception:" ++ ty], ""⟩

/-- One `_run_one_advisor` invocation: the guarded call, then the result
assembly.  Also returns the number of HTTP posts the call issued. -/
def run_one_advisor (cfg : Config) (name deployment : String) (env : CallEnv) :
    AdvisorOut × Nat :=
  let gc := guarded_call cfg env
  (advisorOutOf name deployment gc.1, gc.2)

/-- The diagnostic a failed call records in its placeholder's risk list
(`none` for a successful call). -/
def failureDiag : AdvisorCallOutcome → Option String
  | .ok _ => none
  | .timeout => some "timeout"
  | .httpExc s => some ("error:" ++ toString s)
  | .exc ty => some ("exception:" ++ ty)

/-! ## Orchestrator: `swarm_decide` (src/api/app.py lines 282-366) -/

/-- One configured advisor identity: name and bound deployment.  The persona
(`style`) strings of lines 297-302 are opaque prompt configuration (spec
section 1 excludes prompt text); they feed only the message content and no
modelled observable, so they are elided. -/
structure AdvisorDef where
  name : String
  dep : String
  deriving DecidableEq

/-- The `advisor_defs` table (lines 297-302): four identities in fixed
order, with the deployments resolved at lines 290-293. -/
def advisor_defs (dep_builder dep_skeptic dep_optimizer dep_user : String) : List AdvisorDef :=
  [⟨"Builder", dep_builder⟩, ⟨"Skeptic", dep_skeptic⟩,
   ⟨"Optimizer", dep_optimizer⟩, ⟨"UserAdvocate", dep_user⟩]

/-- Settle every call of one stage, in list order, giving the i-th call the
i-th call environment.  Both stages preserve list order: `asyncio.gather`
(line 309) returns results in the order of its argument list, and the pass-2
loop (lines 312-321) appends in iteration order. -/
def runStage (cfg : Config) (env : Nat → CallEnv) : Nat → List (String × String) → List (AdvisorOut × Nat)
  | _, [] => []
  | i, (n, d) :: rest => run_one_advisor cfg n d (env i) :: runStage cfg env (i + 1) rest

/-- Pass 1 (lines 304-309): one call per configured identity, using the
identity's own name and deployment. -/
def stage1 (cfg : Config) (depB depS depO depU : String) (env1 : Nat → CallEnv) :
    List (AdvisorOut × Nat) :=
  runStage cfg env1 0 ((advisor_defs depB depS depO depU).map fun d => (d.name, d.dep))

/-- The round-1 `AdvisorOut` list (`pass1` at line 309). -/
def pass1Outs (cfg : Config) (depB depS depO depU : String) (env1 : Nat → CallEnv) :
    List AdvisorOut :=
  (stage1 cfg depB depS depO depU env1).map Prod.fst

/-- The peer list built for one advisor in pass 2 (lines 314-317): the
(name, summary, recommendation) triples of every round-1 result whose name
differs from the advisor's. -/
def debatePeers (pass1 : List AdvisorOut) (adv : AdvisorOut) : List (String × String × String) :=
  (pass1.filter fun a => a.name != adv.name).map fun a => (a.name, a.summary, a.recommendation)

/-- Pass 2 (lines 311-321): one call per round-1 result, reusing its name
and model. -/
def stage2 (cfg : Config) (pass1 : List AdvisorOut) (env2 : Nat → CallEnv) :
    List (AdvisorOut × Nat) :=
  runStage cfg env2 0 (pass1.map fun a => (a.name, a.model))

/-- The monarch block's structured-field assembly (lines 336-346), which
runs OUTSIDE the try of lines 327-334: on a non-dict `obj_m` the
`obj_m.get("decision")` call raises `AttributeError` past the handler
(modelled as `none`). -/
def monarchAssemble (raw_m : String) (obj_m : Json) : Option MonarchOut :=
  match obj_m with
  | .obj kvs =>
    match getStrField kvs "decision", getStrField kvs "rationale",
          getStrField kvs "dissent_summary" with
    | some decision, some rationale, some dissent =>
      let next_actions := getListField kvs "next_actions"
      if decision = "" ∧ pyStrip raw_m ≠ "" then
        some ⟨pyStrip raw_m, "", "", []⟩
      else
        some ⟨decision, rationale, dissent, next_actions.map pyStr⟩
    | _, _, _ => none
  | _ => none

/-- Sum of the posts issued by the calls of one stage. -/
def sumPosts (l : List (AdvisorOut × Nat)) : Nat :=
  (l.map Prod.snd).sum

/-- Embedding of the `swarm_decide` route body after authentication
(lines 286-366): pass 1, pass 2, the monarch call (lines 324-334: any
failure is swallowed, leaving `raw_m = ""` and `obj_m = {}` as initialized
at lines 325-326), then response assembly.  The first component is `none`
when the monarch field extraction raises past the route (there is then no
`SwarmResponse`); the second counts every HTTP post issued. -/
def swarm_decide (cfg : Config) (depB depS depO depU : String)
    (env1 env2 : Nat → CallEnv) (envM : CallEnv) : Option SwarmResponse × Nat :=
  let r1 := stage1 cfg depB depS depO depU env1
  let p1 := r1.map Prod.fst
  let r2 := stage2 cfg p1 env2
  let p2 := r2.map Prod.fst
  let mc := guarded_call cfg envM
  let rawObj : String × Json :=
    match mc.1 with
    | .ok raw => (raw, safe_json raw)
    | _ => ("", Json.obj [])
  let posts := sumPosts r1 + sumPosts r2 + mc.2
  match monarchAssemble rawObj.1 rawObj.2 with
  | some m => (some ⟨"ok", p2, m⟩, posts)
  | none => (none, posts)

/-! ## Dispatch traces for the two stages

The concurrency structure of the two passes is embedded as event traces
derived from the control flow: `dispatch i` is call `i` being scheduled,
`settle i` is call `i` completing (successfully or degraded).

Pass 1 (lines 304-309) builds the full coroutine list and hands it to
`asyncio.gather`, which schedules every task before any is joined: all
dispatches precede all settles, whose relative order is environmental
(`settleOrd`).  Pass 2 (lines 311-321) runs
`revised.append(await _run_one_advisor(...))` inside a `for` loop: each call
is dispatched and awaited to settlement before the next is dispatched. -/
inductive Ev where
  | dispatch (i : Nat)
  | settle (i : Nat)
  deriving DecidableEq

/-- Trace of pass 1 for `n` calls: all dispatches, then the settles in the
environmental order `settleOrd`. -/
def pass1Trace (n : Nat) (settleOrd : List Nat) : List Ev :=
  (List.range n).map Ev.dispatch ++ settleOrd.map Ev.settle

/-- Sequential dispatch/settle pairs starting at index `a`. -/
def seqTrace : Nat → Nat → List Ev
  | _, 0 => []
  | a, k + 1 => Ev.dispatch a :: Ev.settle a :: seqTrace (a + 1) k

/-- Trace of pass 2 for `n` calls: the sequential await loop. -/
def pass2Trace (n : Nat) : List Ev :=
  seqTrace 0 n

/-- True when the tail consists only of settle events. -/
def allSettles : List Ev → Bool
  | [] => true
  | .settle _ :: r => allSettles r
  | .dispatch _ :: _ => false

/-- The concurrent fan-out discipline: every dispatch of the stage occurs
before any call settles (no call waits for a sibling to settle before being
dispatched). -/
def dispatchesBeforeSettles : List Ev → Bool
  | [] => true
  | .dispatch _ :: r => dispatchesBeforeSettles r
  | .settle _ :: r => allSettles r

/-! ## Concrete fixtures used by counterexamples and witnesses -/

/-- A fully configured environment with the default retry settings
(`AOAI_RETRY_MAX = 2`, `AOAI_RETRY_BASE_MS = 250`). -/
def cfgOK : Config := ⟨true, true, true, 2, 250⟩

/-- The same, with `AZURE_AOAI_ENDPOINT` unset. -/
def cfgMissing : Config := ⟨false, true, true, 2, 250⟩

/-- A call that immediately succeeds with the raw text `raw`. -/
def envOk (raw : String) : CallEnv :=
  ⟨false, 0, fun _ => .status 200 raw, fun _ => 0⟩

/-- A call whose `wait_for` deadline fires. -/
def envTimeout : CallEnv := ⟨true, 0, fun _ => .netErr, fun _ => 0⟩

/-- A call whose every attempt hits a network fault (no deadline). -/
def envNet : CallEnv := ⟨false, 0, fun _ => .netErr, fun _ => 0⟩

/-- Attempt oracle: every attempt raises a network fault. -/
def allNetErr : Nat → AttemptOutcome := fun _ => .netErr

/-- Jitter oracle drawing 0 every time. -/
def zeroJitter : Nat → Nat := fun _ => 0

/-- Attempt oracle: first attempt gets status 503, the second succeeds. -/
def oracle503 : Nat → AttemptOutcome :=
  fun n => if n = 0 then .status 503 "busy" else .status 200 "yes"

/-- Attempt oracle: every attempt gets a terminal 404. -/
def oracle404 : Nat → AttemptOutcome := fun _ => .status 404 "no"

/-- Attempt oracle: two network faults, then success. -/
def cexOutcome : Nat → AttemptOutcome :=
  fun n => if n < 2 then .netErr else .status 200 ""

/-- Jitter oracle: draws 150 on the first attempt, 0 afterwards (both legal
draws of `random.randint(0, 150)`). -/
def cexJitter : Nat → Nat := fun n => if n = 0 then 150 else 0

/-- A configured environment whose `AOAI_RETRY_BASE_MS` is 0. -/
def cfgZeroBase : Config := ⟨true, true, true, 2, 0⟩

/-! ## Helper lemmas -/

/-- Every branch of `_run_one_advisor` returns an `AdvisorOut` carrying the
`name` argument. -/
@[simp] theorem advisorOutOf_name (n d : String) (out : AdvisorCallOutcome) :
    (advisorOutOf n d out).name = n := by
  cases out <;> simp only [advisorOutOf] <;> (repeat' split) <;> rfl

/-- Every branch of `_run_one_advisor` returns an `AdvisorOut` carrying the
`deployment` argument as its `model`. -/
@[simp] theorem advisorOutOf_model (n d : String) (out : AdvisorCallOutcome) :
    (advisorOutOf n d out).model = d := by
  cases out <;> simp only [advisorOutOf] <;> (repeat' split) <;> rfl

@[simp] theorem run_one_advisor_name (cfg : Config) (n d : String) (env : CallEnv) :
    (run_one_advisor cfg n d env).1.name = n := by
  simp [run_one_advisor]

@[simp] theorem run_one_advisor_model (cfg : Config) (n d : String) (env : CallEnv) :
    (run_one_advisor cfg n d env).1.model = d := by
  simp [run_one_advisor]

/-- A failed call maps to the empty placeholder carrying only its
diagnostic. -/
theorem advisorOutOf_failure (n d : String) (out : AdvisorCallOutcome) (diag : String)
    (h : failureDiag out = some diag) :
    advisorOutOf n d out = ⟨n, d, "", [diag], ""⟩ := by
  cases out with
  | ok raw => simp [failureDiag] at h
  | timeout =>
    simp only [failureDiag, Option.some.injEq] at h
    subst h; rfl
  | httpExc s =>
    simp only [failureDiag, Option.some.injEq] at h
    subst h; rfl
  | exc ty =>
    simp only [failureDiag, Option.some.injEq] at h
    subst h; rfl

/-- With the configuration guard failing, every guarded call degrades to the
`RuntimeError` diagnostic without issuing a post. -/
theorem guarded_call_noConfig (cfg : Config) (env : CallEnv) (h : configOk cfg = false) :
    guarded_call cfg env = (.exc "RuntimeError", 0) := by
  simp [guarded_call, h]

theorem runStage_length (cfg : Config) (env : Nat → CallEnv) :
    ∀ (ps : List (String × String)) (i : Nat), (runStage cfg env i ps).length = ps.length := by
  intro ps
  induction ps with
  | nil => intro i; rfl
  | cons hd tl ih =>
    intro i
    cases hd
    simp [runStage, ih]

theorem runStage_getElem (cfg : Config) (env : Nat → CallEnv) :
    ∀ (ps : List (String × String)) (j i : Nat),
      (runStage cfg env j ps)[i]? =
        ps[i]?.map (fun nd => run_one_advisor cfg nd.1 nd.2 (env (j + i))) := by
  intro ps
  induction ps with
  | nil => intro j i; simp [runStage]
  | cons hd tl ih =>
    intro j i
    cases hd with
    | mk n d =>
      cases i with
      | zero => simp [runStage]
      | succ k =>
        have e : j + 1 + k = j + (k + 1) := by omega
        simp only [runStage, List.getElem?_cons_succ, ih (j + 1) k, e]

theorem runStage_names (cfg : Config) (env : Nat → CallEnv) :
    ∀ (ps : List (String × String)) (i : Nat),
      ((runStage cfg env i ps).map fun x => x.1.name) = ps.map Prod.fst := by
  intro ps
  induction ps with
  | nil => intro i; rfl
  | cons hd tl ih =>
    intro i
    cases hd
    simp [runStage, ih]

theorem runStage_models (cfg : Config) (env : Nat → CallEnv) :
    ∀ (ps : List (String × String)) (i : Nat),
      ((runStage cfg env i ps).map fun x => x.1.model) = ps.map Prod.snd := by
  intro ps
  induction ps with
  | nil => intro i; rfl
  | cons hd tl ih =>
    intro i
    cases hd
    simp [runStage, ih]

/-- Pass 1 unfolded: one call per configured identity, in configuration
order. -/
theorem pass1Outs_eq (cfg : Config) (dB dS dO dU : String) (env1 : Nat → CallEnv) :
    pass1Outs cfg dB dS dO dU env1 =
      [(run_one_advisor cfg "Builder" dB (env1 0)).1,
       (run_one_advisor cfg "Skeptic" dS (env1 1)).1,
       (run_one_advisor cfg "Optimizer" dO (env1 2)).1,
       (run_one_advisor cfg "UserAdvocate" dU (env1 3)).1] := by
  simp [pass1Outs, stage1, advisor_defs, runStage]

/-- No peer entry ever carries the advisor's own name (the filter at
line 316 removes it). -/
theorem debatePeers_not_self (p1 : List AdvisorOut) (adv : AdvisorOut) :
    ∀ x ∈ debatePeers p1 adv, x.1 ≠ adv.name := by
  intro x hx
  unfold debatePeers at hx
  simp only [List.mem_map] at hx
  obtain ⟨a, ha, rfl⟩ := hx
  have hmem := List.of_mem_filter ha
  simpa [bne_iff_ne] using hmem

/-- The delays recorded by the retry loop are the backoffs of consecutive
attempt indices starting at the loop's entry attempt. -/
theorem runAttempts_delays_shape (m b : Nat) (o : Nat → AttemptOutcome) (j : Nat → Nat) :
    ∀ (fuel attempt : Nat), ∃ k,
      (runAttempts m b o j attempt fuel).delays =
        (List.range' attempt k).map (backoffMs b j) := by
  intro fuel
  induction fuel with
  | zero => intro attempt; exact ⟨0, rfl⟩
  | succ f ih =>
    intro attempt
    cases h : o attempt with
    | status code content =>
      by_cases hc : code ∈ RETRYABLE ∧ attempt < m
      · obtain ⟨k, hk⟩ := ih (attempt + 1)
        refine ⟨k + 1, ?_⟩
        simp [runAttempts, h, hc, hk, List.range'_succ]
      · by_cases h4 : 400 ≤ code
        · exact ⟨0, by simp [runAttempts, h, hc, h4]⟩
        · exact ⟨0, by simp [runAttempts, h, hc, h4]⟩
    | netErr =>
      by_cases hm : m ≤ attempt
      · exact ⟨0, by simp [runAttempts, h, hm]⟩
      · obtain ⟨k, hk⟩ := ih (attempt + 1)
        refine ⟨k + 1, ?_⟩
        simp [runAttempts, h, hm, hk, List.range'_succ]

/-- The retry loop records at most `retryMax - attempt` delays (every
backoff requires `attempt < retryMax`). -/
theorem runAttempts_delays_length (m b : Nat) (o : Nat → AttemptOutcome) (j : Nat → Nat) :
    ∀ (fuel attempt : Nat),
      (runAttempts m b o j attempt fuel).delays.length ≤ m - attempt := by
  intro fuel
  induction fuel with
  | zero => intro attempt; simp [runAttempts]
  | succ f ih =>
    intro attempt
    cases h : o attempt with
    | status code content =>
      by_cases hc : code ∈ RETRYABLE ∧ attempt < m
      · have := ih (attempt + 1)
        simp only [runAttempts, h]
        rw [if_pos hc]
        simp only [List.length_cons]
        omega
      · by_cases h4 : 400 ≤ code
        · simp [runAttempts, h, hc, h4]
        · simp [runAttempts, h, hc, h4]
    | netErr =>
      by_cases hm : m ≤ attempt
      · simp [runAttempts, h, hm]
      · have := ih (attempt + 1)
        simp only [runAttempts, h]
        rw [if_neg hm]
        simp only [List.length_cons]
        omega

/-- A pointwise-monotone function maps a consecutive index range to a
non-decreasing list. -/
theorem chain_le_map_range' (f : Nat → Nat) (hf : ∀ n, f n ≤ f (n + 1)) :
    ∀ (k a : Nat), List.Chain' (· ≤ ·) ((List.range' a k).map f) := by
  intro k
  induction k with
  | zero => intro a; simp
  | succ k2 ih =>
    intro a
    rw [List.range'_succ, List.map_cons, List.chain'_cons']
    refine ⟨?_, ih (a + 1)⟩
    intro c hc
    cases k2 with
    | zero => simp at hc
    | succ k3 =>
      rw [List.range'_succ, List.map_cons] at hc
      simp only [List.head?_cons, Option.mem_def, Option.some.injEq] at hc
      subst hc
      exact hf a

/-- With the configured base at least the maximum jitter (150 ms), the
backoff formula `base * 2 ** attempt + jitter` is monotone in the attempt
index. -/
theorem backoffMs_mono (b : Nat) (j : Nat → Nat) (hb : 150 ≤ b) (hj : ∀ n, j n ≤ 150)
    (n : Nat) : backoffMs b j n ≤ backoffMs b j (n + 1) := by
  unfold backoffMs
  have h1 : (1 : ℕ) ≤ 2 ^ n := Nat.one_le_two_pow
  have h3 : b ≤ b * 2 ^ n := by
    calc b = b * 1 := by ring
    _ ≤ b * 2 ^ n := Nat.mul_le_mul_left b h1
  calc b * 2 ^ n + j n ≤ b * 2 ^ n + 150 := Nat.add_le_add_left (hj n) _
    _ ≤ b * 2 ^ n + b := Nat.add_le_add_left hb _
    _ ≤ b * 2 ^ n + b * 2 ^ n := Nat.add_le_add_left h3 _
    _ = b * 2 ^ (n + 1) := by ring
    _ ≤ b * 2 ^ (n + 1) + j (n + 1) := Nat.le_add_right _ _

theorem allSettles_map (l : List Nat) : allSettles (l.map Ev.settle) = true := by
  induction l with
  | nil => rfl
  | cons x xs ih => simpa [allSettles] using ih

/-- A block of dispatches followed by a block of settles satisfies the
concurrent fan-out discipline. -/
theorem dispatchesBeforeSettles_blocks (dl sl : List Nat) :
    dispatchesBeforeSettles (dl.map Ev.dispatch ++ sl.map Ev.settle) = true := by
  induction dl with
  | nil =>
    cases sl with
    | nil => rfl
    | cons s rest => simpa [dispatchesBeforeSettles] using allSettles_map rest
  | cons d rest ih => simpa [dispatchesBeforeSettles] using ih

/-- Positions in the sequential pass-2 trace: call `i` is dispatched at
position `2i` and settles at position `2i + 1`. -/
theorem seqTrace_getElem :
    ∀ (i k a : Nat), i < k →
      (seqTrace a k)[2 * i]? = some (Ev.dispatch (a + i)) ∧
      (seqTrace a k)[2 * i + 1]? = some (Ev.settle (a + i)) := by
  intro i
  induction i with
  | zero =>
    intro k a hk
    cases k with
    | zero => omega
    | succ k2 => simp [seqTrace]
  | succ i2 ih =>
    intro k a hk
    cases k with
    | zero => omega
    | succ k2 =>
      have hi : i2 < k2 := by omega
      have h1 : 2 * (i2 + 1) = 2 * i2 + 1 + 1 := by ring
      have h2 : 2 * (i2 + 1) + 1 = 2 * i2 + 1 + 1 + 1 := by ring
      have hrec := ih k2 (a + 1) hi
      have ha : a + 1 + i2 = a + (i2 + 1) := by omega
      constructor
      · rw [h1]
        simpa [seqTrace, ha] using hrec.1
      · rw [h2]
        simpa [seqTrace, ha] using hrec.2

/-! ## Claim theorems -/

/-- Claim C1 (counterexample): with round 1 succeeding ("hello") and the
round-2 call for the first identity timing out, the DebateStage result for
that identity is the empty placeholder with only the "timeout" diagnostic,
which differs from its round-1 AdvisorResult — refuting that the fallback
is the round-1 result. -/
theorem debate_failure_not_round1_result :
    ((pass1Outs cfgOK "m" "m" "m" "m" fun _ => envOk "hello")[0]? =
        some ⟨"Builder", "m", "hello", [], "N/A"⟩) ∧
    (((stage2 cfgOK (pass1Outs cfgOK "m" "m" "m" "m" fun _ => envOk "hello")
        fun _ => envTimeout).map Prod.fst)[0]? =
        some ⟨"Builder", "m", "", ["timeout"], ""⟩) ∧
    (⟨"Builder", "m", "", ["timeout"], ""⟩ : AdvisorOut) ≠
      ⟨"Builder", "m", "hello", [], "N/A"⟩ :=
  ⟨rfl, rfl, by decide⟩

/-- Claim C1 (amended): when an advisor's round-2 (debate) call fails with
any Degraded reason, the DebateStage's entry for that identity is an empty
placeholder carrying the identity's round-1 name and model with the failure
reason as its only diagnostic risk entry — the round-1 result is not
restored. -/
theorem debate_failure_yields_placeholder (cfg : Config) (p1 : List AdvisorOut)
    (env2 : Nat → CallEnv) (i : Nat) (a : AdvisorOut) (diag : String)
    (ha : p1[i]? = some a)
    (hf : failureDiag (guarded_call cfg (env2 i)).1 = some diag) :
    ((stage2 cfg p1 env2).map Prod.fst)[i]? = some ⟨a.name, a.model, "", [diag], ""⟩ := by
  unfold stage2
  rw [List.getElem?_map, runStage_getElem]
  simp only [List.getElem?_map, ha, Option.map_some', Nat.zero_add]
  simp only [run_one_advisor]
  rw [advisorOutOf_failure _ _ _ _ hf]

/-- Witness for `debate_failure_yields_placeholder` at a concrete run
(round-2 call of the second identity times out). -/
theorem debate_failure_yields_placeholder_witness :
    ((stage2 cfgOK (pass1Outs cfgOK "m" "m" "m" "m" fun _ => envOk "hello")
        fun _ => envTimeout).map Prod.fst)[1]? =
      some ⟨"Skeptic", "m", "", ["timeout"], ""⟩ :=
  debate_failure_yields_placeholder cfgOK
    (pass1Outs cfgOK "m" "m" "m" "m" fun _ => envOk "hello")
    (fun _ => envTimeout) 1 ⟨"Skeptic", "m", "hello", [], "N/A"⟩ "timeout" rfl rfl

/-- Claim C2 (counterexample): with the external-capability configuration
missing, the request does not fail as an error: it completes, with status
"ok" (and zero external calls issued) — refuting that the entire request
fails immediately. -/
theorem missing_config_request_not_failed :
    ((swarm_decide cfgMissing "d" "d" "d" "d" (fun _ => envNet) (fun _ => envNet) envNet).1.map
        SwarmResponse.status = some "ok") ∧
    (swarm_decide cfgMissing "d" "d" "d" "d" (fun _ => envNet) (fun _ => envNet) envNet).2 = 0 ∧
    "ok" ≠ "error" :=
  ⟨rfl, rfl, by decide⟩

/-- Claim C2 (amended): when the required external-capability configuration
is missing, no advisor or arbiter HTTP call is issued (0 posts), but the
request does not fail: every advisor call degrades in place to a
`RuntimeError` diagnostic placeholder and the request completes with status
"ok" and an empty arbiter decision. -/
theorem missing_config_completes_ok_no_calls (cfg : Config) (dB dS dO dU : String)
    (env1 env2 : Nat → CallEnv) (envM : CallEnv) (h : configOk cfg = false) :
    swarm_decide cfg dB dS dO dU env1 env2 envM =
      (some ⟨"ok",
        [⟨"Builder", dB, "", ["exception:RuntimeError"], ""⟩,
         ⟨"Skeptic", dS, "", ["exception:RuntimeError"], ""⟩,
         ⟨"Optimizer", dO, "", ["exception:RuntimeError"], ""⟩,
         ⟨"UserAdvocate", dU, "", ["exception:RuntimeError"], ""⟩],
        ⟨"", "", "", []⟩⟩, 0) := by
  have hg : ∀ env, guarded_call cfg env = (.exc "RuntimeError", 0) :=
    fun env => guarded_call_noConfig cfg env h
  simp [swarm_decide, stage1, stage2, advisor_defs, runStage, run_one_advisor, hg,
        advisorOutOf, sumPosts, monarchAssemble, getStrField, jlookup, getListField,
        pyStrip]

/-- Witness for `missing_config_completes_ok_no_calls` at a concrete
configuration with the endpoint unset. -/
theorem missing_config_completes_ok_no_calls_witness :
    swarm_decide cfgMissing "m" "m" "m" "m" (fun _ => envNet) (fun _ => envNet) envNet =
      (some ⟨"ok",
        [⟨"Builder", "m", "", ["exception:RuntimeError"], ""⟩,
         ⟨"Skeptic", "m", "", ["exception:RuntimeError"], ""⟩,
         ⟨"Optimizer", "m", "", ["exception:RuntimeError"], ""⟩,
         ⟨"UserAdvocate", "m", "", ["exception:RuntimeError"], ""⟩],
        ⟨"", "", "", []⟩⟩, 0) :=
  missing_config_completes_ok_no_calls cfgMissing "m" "m" "m" "m"
    (fun _ => envNet) (fun _ => envNet) envNet rfl

/-- Claim C4: whenever orchestration produces a `SwarmResponse`, its
advisor list has exactly the configured advisor count, regardless of the
outcome of any individual call in either round. -/
theorem advisor_count_invariant (cfg : Config) (dB dS dO dU : String)
    (env1 env2 : Nat → CallEnv) (envM : CallEnv) (resp : SwarmResponse) (n : Nat)
    (h : swarm_decide cfg dB dS dO dU env1 env2 envM = (some resp, n)) :
    resp.advisors.length = (advisor_defs dB dS dO dU).length := by
  simp only [swarm_decide] at h
  split at h
  next m hm =>
    simp only [Prod.mk.injEq, Option.some.injEq] at h
    obtain ⟨h1, -⟩ := h
    subst h1
    simp [stage2, stage1, runStage_length, List.length_map]
  next hm => simp at h

/-- Witness for `advisor_count_invariant` at a concrete degraded run. -/
theorem advisor_count_invariant_witness :
    (⟨"ok",
      [⟨"Builder", "m", "", ["exception:RuntimeError"], ""⟩,
       ⟨"Skeptic", "m", "", ["exception:RuntimeError"], ""⟩,
       ⟨"Optimizer", "m", "", ["exception:RuntimeError"], ""⟩,
       ⟨"UserAdvocate", "m", "", ["exception:RuntimeError"], ""⟩],
      ⟨"", "", "", []⟩⟩ : SwarmResponse).advisors.length =
      (advisor_defs "m" "m" "m" "m").length :=
  advisor_count_invariant cfgMissing "m" "m" "m" "m"
    (fun _ => envNet) (fun _ => envNet) envNet _ 0 rfl

/-- Claim C10: whenever orchestration produces a `SwarmResponse`, its
advisor list names exactly the four configured identities in configuration
order, and each entry's model is the identity's bound deployment — on every
path, success or degraded. -/
theorem advisors_fixed_names_models (cfg : Config) (dB dS dO dU : String)
    (env1 env2 : Nat → CallEnv) (envM : CallEnv) (resp : SwarmResponse) (n : Nat)
    (h : swarm_decide cfg dB dS dO dU env1 env2 envM = (some resp, n)) :
    resp.advisors.map AdvisorOut.name = ["Builder", "Skeptic", "Optimizer", "UserAdvocate"] ∧
    resp.advisors.map AdvisorOut.model = [dB, dS, dO, dU] := by
  simp only [swarm_decide] at h
  split at h
  next m hm =>
    simp only [Prod.mk.injEq, Option.some.injEq] at h
    obtain ⟨h1, -⟩ := h
    subst h1
    constructor
    · simp [stage2, stage1, List.map_map, Function.comp_def, runStage_names, advisor_defs]
    · simp [stage2, stage1, List.map_map, Function.comp_def, runStage_models,
            runStage_names, advisor_defs]
  next hm => simp at h

/-- Witness for `advisors_fixed_names_models` at a concrete successful
run. -/
theorem advisors_fixed_names_models_witness :
    (⟨"ok",
      [⟨"Builder", "m1", "hello", [], "N/A"⟩,
       ⟨"Skeptic", "m2", "hello", [], "N/A"⟩,
       ⟨"Optimizer", "m3", "hello", [], "N/A"⟩,
       ⟨"UserAdvocate", "m4", "hello", [], "N/A"⟩],
      ⟨"hello", "", "", []⟩⟩ : SwarmResponse).advisors.map AdvisorOut.name =
        ["Builder", "Skeptic", "Optimizer", "UserAdvocate"] ∧
    (⟨"ok",
      [⟨"Builder", "m1", "hello", [], "N/A"⟩,
       ⟨"Skeptic", "m2", "hello", [], "N/A"⟩,
       ⟨"Optimizer", "m3", "hello", [], "N/A"⟩,
       ⟨"UserAdvocate", "m4", "hello", [], "N/A"⟩],
      ⟨"hello", "", "", []⟩⟩ : SwarmResponse).advisors.map AdvisorOut.model =
        ["m1", "m2", "m3", "m4"] :=
  advisors_fixed_names_models cfgOK "m1" "m2" "m3" "m4"
    (fun _ => envOk "hello") (fun _ => envOk "hello") (envOk "hello") _ 9 rfl

/-- Claim C3 (counterexample): with the deployed four advisors, the round-2
trace violates the concurrent fan-out discipline that the round-1 trace
satisfies — refuting that the DebateStage uses the identical concurrent
dispatch/join discipline. -/
theorem round2_dispatch_after_settle :
    dispatchesBeforeSettles (pass2Trace 4) = false ∧
    dispatchesBeforeSettles (pass1Trace 4 [0, 1, 2, 3]) = true :=
  ⟨rfl, rfl⟩

/-- Claim C3 (amended): round 1 dispatches every advisor call before any of
them settles (asyncio.gather), for any call count and settle order; round 2
does not share that discipline: it is sequential, call `i` settling (trace
position `2i + 1`) before call `i + 1` is dispatched (position `2i + 2`). -/
theorem round1_concurrent_round2_sequential (n : Nat) (settleOrd : List Nat) (i : Nat) :
    dispatchesBeforeSettles (pass1Trace n settleOrd) = true ∧
    (i + 1 < n →
      (pass2Trace n)[2 * i + 1]? = some (Ev.settle i) ∧
      (pass2Trace n)[2 * i + 2]? = some (Ev.dispatch (i + 1))) := by
  constructor
  · unfold pass1Trace
    exact dispatchesBeforeSettles_blocks (List.range n) settleOrd
  · intro hin
    have h1 := (seqTrace_getElem i n 0 (by omega)).2
    have h2 := (seqTrace_getElem (i + 1) n 0 hin).1
    have e : 2 * (i + 1) = 2 * i + 2 := by ring
    rw [e] at h2
    exact ⟨by simpa [pass2Trace] using h1, by simpa [pass2Trace] using h2⟩

/-- Witness for `round1_concurrent_round2_sequential` at four calls. -/
theorem round1_concurrent_round2_sequential_witness :
    dispatchesBeforeSettles (pass1Trace 4 [2, 0, 3, 1]) = true ∧
    (pass2Trace 4)[1]? = some (Ev.settle 0) ∧
    (pass2Trace 4)[2]? = some (Ev.dispatch 1) := by
  have h := round1_concurrent_round2_sequential 4 [2, 0, 3, 1] 0
  have h2 := h.2 (by omega)
  exact ⟨h.1, by simpa using h2.1, by simpa using h2.2⟩

/-- Claim C5: the retry discipline of `aoai_chat`. (1) A response status in
the retryable set with attempts remaining computes the backoff
`base * 2 ** attempt + jitter(attempt)` and retries; (2) any other
non-success status is terminal, with no retry; (3) a first attempt
returning 503 followed by a success settles the call as Success with
exactly one retry recorded. -/
theorem retry_policy_correct (retryMax base : Nat) (outcome : Nat → AttemptOutcome)
    (jitter : Nat → Nat) :
    (∀ attempt fuel code content, outcome attempt = .status code content →
      code ∈ RETRYABLE → attempt < retryMax →
      runAttempts retryMax base outcome jitter attempt (fuel + 1) =
        ⟨(runAttempts retryMax base outcome jitter (attempt + 1) fuel).result,
         backoffMs base jitter attempt ::
           (runAttempts retryMax base outcome jitter (attempt + 1) fuel).delays,
         (runAttempts retryMax base outcome jitter (attempt + 1) fuel).posts + 1⟩) ∧
    (∀ attempt fuel code content, outcome attempt = .status code content →
      code ∉ RETRYABLE → 400 ≤ code →
      runAttempts retryMax base outcome jitter attempt (fuel + 1) =
        ⟨.httpError code, [], 1⟩) ∧
    (∀ (cfg : Config) (body text : String), configOk cfg = true → 1 ≤ cfg.retryMax →
      outcome 0 = .status 503 body → outcome 1 = .status 200 text →
      aoai_chat cfg outcome jitter =
        ⟨.success text, [backoffMs cfg.retryBaseMs jitter 0], 2⟩) := by
  refine ⟨?_, ?_, ?_⟩
  · intro attempt fuel code content ho hr hl
    simp only [runAttempts, ho]
    rw [if_pos ⟨hr, hl⟩]
  · intro attempt fuel code content ho hr h4
    simp only [runAttempts, ho]
    rw [if_neg (fun hc => hr hc.1), if_pos h4]
  · intro cfg body text hcfg hrm h0 h1
    obtain ⟨k, hk⟩ : ∃ k, cfg.retryMax = k + 1 := ⟨cfg.retryMax - 1, by omega⟩
    simp only [aoai_chat, hcfg, if_true, hk]
    simp only [runAttempts, h0]
    rw [if_pos ⟨by simp [RETRYABLE], Nat.succ_pos k⟩]
    simp only [runAttempts, h1]
    rw [if_neg (fun hc => by simp [RETRYABLE] at hc),
        if_neg (by omega : ¬ 400 ≤ 200)]

/-- Witness for `retry_policy_correct` at concrete oracles. -/
theorem retry_policy_correct_witness :
    (runAttempts 2 250 oracle503 zeroJitter 0 3 =
      ⟨(runAttempts 2 250 oracle503 zeroJitter 1 2).result,
       backoffMs 250 zeroJitter 0 :: (runAttempts 2 250 oracle503 zeroJitter 1 2).delays,
       (runAttempts 2 250 oracle503 zeroJitter 1 2).posts + 1⟩) ∧
    (runAttempts 2 250 oracle404 zeroJitter 0 3 = ⟨.httpError 404, [], 1⟩) ∧
    (aoai_chat cfgOK oracle503 zeroJitter =
      ⟨.success "yes", [backoffMs cfgOK.retryBaseMs zeroJitter 0], 2⟩) := by
  refine ⟨?_, ?_, ?_⟩
  · exact (retry_policy_correct 2 250 oracle503 zeroJitter).1 0 2 503 "busy" rfl
      (by simp [RETRYABLE]) (by omega)
  · exact (retry_policy_correct 2 250 oracle404 zeroJitter).2.1 0 2 404 "no" rfl
      (by simp [RETRYABLE]) (by omega)
  · exact (retry_policy_correct 2 250 oracle503 zeroJitter).2.2 cfgOK "busy" "yes" rfl
      (by decide) rfl rfl

/-- Claim C6 (counterexample): with the configured base 0 ms (a legal
`AOAI_RETRY_BASE_MS` value) and legal jitter draws 150 then 0, a single
call's backoff delays are [150, 0] — a decreasing sequence, refuting that
delays are non-decreasing across all configured base values and jitter
draws. -/
theorem backoff_decreasing_small_base :
    (aoai_chat cfgZeroBase cexOutcome cexJitter).delays = [150, 0] ∧
    ¬ List.Chain' (· ≤ ·) ((aoai_chat cfgZeroBase cexOutcome cexJitter).delays) ∧
    cexJitter 0 ≤ 150 ∧ cexJitter 1 ≤ 150 := by
  refine ⟨rfl, ?_, by decide, by decide⟩
  intro hch
  rw [show (aoai_chat cfgZeroBase cexOutcome cexJitter).delays = [150, 0] from rfl] at hch
  have h150 := (List.chain'_cons.mp hch).1
  omega

/-- Claim C6 (amended): a call's retry count (number of recorded backoff
delays) never exceeds the configured maximum; and whenever the configured
base is at least the jitter bound (150 ms) — in particular at the default
250 ms — the backoff delays are non-decreasing across the call's
attempts. -/
theorem retry_bound_and_backoff_monotone (cfg : Config) (outcome : Nat → AttemptOutcome)
    (jitter : Nat → Nat) :
    (aoai_chat cfg outcome jitter).delays.length ≤ cfg.retryMax ∧
    ((∀ n, jitter n ≤ 150) → 150 ≤ cfg.retryBaseMs →
      List.Chain' (· ≤ ·) (aoai_chat cfg outcome jitter).delays) := by
  unfold aoai_chat
  by_cases hcfg : configOk cfg = true
  · rw [if_pos hcfg]
    constructor
    · have := runAttempts_delays_length cfg.retryMax cfg.retryBaseMs outcome jitter
        (cfg.retryMax + 1) 0
      omega
    · intro hj hb
      obtain ⟨k, hk⟩ := runAttempts_delays_shape cfg.retryMax cfg.retryBaseMs outcome jitter
        (cfg.retryMax + 1) 0
      rw [hk]
      exact chain_le_map_range' _ (backoffMs_mono _ _ hb hj) k 0
  · rw [if_neg hcfg]
    exact ⟨by simp, fun _ _ => by simp⟩

/-- Witness for `retry_bound_and_backoff_monotone` at the default
configuration. -/
theorem retry_bound_and_backoff_monotone_witness :
    (aoai_chat cfgOK allNetErr zeroJitter).delays.length ≤ cfgOK.retryMax ∧
    List.Chain' (· ≤ ·) (aoai_chat cfgOK allNetErr zeroJitter).delays :=
  ⟨(retry_bound_and_backoff_monotone cfgOK allNetErr zeroJitter).1,
   (retry_bound_and_backoff_monotone cfgOK allNetErr zeroJitter).2
     (fun _ => Nat.zero_le 150) (by decide)⟩

/-- Claim C7: evaluation at the failing input "3", which contains no brace
character: `json.loads` succeeds on the bare scalar, so `safe_json` returns
the non-mapping value 3 instead of a mapping — contradicting the parser
contract (and the function's own `Dict[str, Any]` annotation). -/
theorem safe_json_scalar_eval :
    safe_json "3" = Json.num 3 ∧
    jIsObj (safe_json "3") = false ∧
    "3".data.contains lbraceChar = false :=
  ⟨rfl, rfl, rfl⟩

/-- Claim C8 (counterexample): a successful call with non-empty raw text
" x " (which parses to the empty mapping) yields summary "x" — the raw
text stripped of surrounding whitespace, not the raw text verbatim. -/
theorem raw_fallback_not_verbatim :
    advisorOutOf "Builder" "m" (.ok " x ") = ⟨"Builder", "m", "x", [], "N/A"⟩ ∧
    ("x" : String) ≠ " x " :=
  ⟨rfl, by decide⟩

/-- Claim C8 (amended): when an advisor call succeeds, the parse yields the
empty mapping, and the stripped raw text is non-empty, the result carries
the stripped raw text as its summary, recommendation "N/A" and no risks —
the content is preserved up to surrounding whitespace, never discarded. -/
theorem raw_fallback_stripped_summary (name dep raw : String)
    (hp : safe_json raw = Json.obj []) (hr : pyStrip raw ≠ "") :
    advisorOutOf name dep (.ok raw) = ⟨name, dep, pyStrip raw, [], "N/A"⟩ := by
  simp only [advisorOutOf, hp]
  simp only [getStrField, jlookup, List.reverse_nil, List.find?_nil, Option.map_none']
  simp [hr]

/-- Witness for `raw_fallback_stripped_summary` at raw text " x ". -/
theorem raw_fallback_stripped_summary_witness :
    advisorOutOf "A" "d" (.ok " x ") = ⟨"A", "d", "x", [], "N/A"⟩ :=
  raw_fallback_stripped_summary "A" "d" " x " rfl (by decide)

/-- Claim C9: in the debate round, an advisor's peer list never contains an
entry with its own name, and equals exactly the other advisors' round-1
(name, summary, recommendation) triples — the round-1 list with that
advisor's entry removed — for every advisor index and arbitrary round-1
outcomes. -/
theorem peer_context_excludes_self (cfg : Config) (dB dS dO dU : String)
    (env1 : Nat → CallEnv) (i : Nat) (adv : AdvisorOut)
    (h : (pass1Outs cfg dB dS dO dU env1)[i]? = some adv) :
    (∀ x ∈ debatePeers (pass1Outs cfg dB dS dO dU env1) adv, x.1 ≠ adv.name) ∧
    debatePeers (pass1Outs cfg dB dS dO dU env1) adv =
      ((pass1Outs cfg dB dS dO dU env1).eraseIdx i).map
        (fun a => (a.name, a.summary, a.recommendation)) := by
  refine ⟨debatePeers_not_self _ _, ?_⟩
  rw [pass1Outs_eq] at h ⊢
  rcases i with _ | _ | _ | _ | n
  · simp only [List.getElem?_cons_zero, Option.some.injEq] at h
    subst h
    simp [debatePeers, List.eraseIdx, List.filter]
  · simp only [List.getElem?_cons_succ, List.getElem?_cons_zero, Option.some.injEq] at h
    subst h
    simp [debatePeers, List.eraseIdx, List.filter]
  · simp only [List.getElem?_cons_succ, List.getElem?_cons_zero, Option.some.injEq] at h
    subst h
    simp [debatePeers, List.eraseIdx, List.filter]
  · simp only [List.getElem?_cons_succ, List.getElem?_cons_zero, Option.some.injEq] at h
    subst h
    simp [debatePeers, List.eraseIdx, List.filter]
  · simp at h

/-- Witness for `peer_context_excludes_self` at a concrete successful
round 1. -/
theorem peer_context_excludes_self_witness :
    debatePeers (pass1Outs cfgOK "m" "m" "m" "m" fun _ => envOk "hello")
        ⟨"Builder", "m", "hello", [], "N/A"⟩ =
      ((pass1Outs cfgOK "m" "m" "m" "m" fun _ => envOk "hello").eraseIdx 0).map
        (fun a => (a.name, a.summary, a.recommendation)) :=
  (peer_context_excludes_self cfgOK "m" "m" "m" "m" (fun _ => envOk "hello") 0
    ⟨"Builder", "m", "hello", [], "N/A"⟩ rfl).2

end NeoCore
